import Mathlib

/-!
# Verification of the UEDX24240013-MD50E input/display core

Shallow embedding of the quadrature-encoder decoder task
(`src/components/bsp/bsp_indev.c`), the GC9A01 panel driver
(`src/components/bsp/lcd_panel_gc9a01.c`), the tear-gate
(`src/components/bsp/bsp_lcd.c`) and the LVGL flush/encoder glue
(`src/main/lvgl_port.c`), together with theorems settling the frozen
claims about them.

Machine integers are modelled as `Nat` bit patterns with explicit
`% 2^32` where the C code wraps; `size_t` on the ESP32-C3 target is
32 bits wide.
-/

/-- `2^32`, the modulus of 32-bit machine arithmetic (`size_t` and
`int32_t` on the ESP32 target are both 32 bits wide). -/
def M32 : Nat := 2 ^ 32

/-- The bit pattern stored by the C assignment `dir = -1` when `dir` has
the unsigned type `size_t` (width 32): the value `2^32 - 1`. -/
def size_t_neg1 : Nat := M32 - 1

/-- Interpretation of a 32-bit pattern as a signed `int32_t` value
(two's complement). -/
def toInt32 (n : Nat) : Int :=
  if n % M32 < 2 ^ 31 then (n % M32 : Int) else (n % M32 : Int) - (M32 : Int)

/-! ## Quadrature decoder (`bsp_indev.c`, `gpioTaskExample`) -/

/-- The two encoder phase pins, `GPIO_CNT_A` and `GPIO_CNT_B`. -/
inductive Pin : Type
  | A : Pin
  | B : Pin
deriving DecidableEq, Repr

/-- `bsp_encoder_event_t`: the encoder callback events. -/
inductive EncEvent : Type
  | inc : EncEvent
  | dec : EncEvent
deriving DecidableEq, Repr

/-- The mutable module state of `bsp_indev.c` that the decoder task
`gpioTaskExample` reads and writes: the previous phase levels
(`pha_value_old`, `phb_value_old`), the phase-changed flags
(`pha_value_change`, `phb_value_change`), the direction variable `dir`
(a `size_t`, kept as its 32-bit pattern), the retained `event`
variable, and the accumulator `EC11_Value` (an `int32_t`, kept as its
32-bit pattern). -/
structure EncState : Type where
  phaOld : Bool
  phbOld : Bool
  phaChange : Bool
  phbChange : Bool
  dir : Nat
  event : EncEvent
  value : Nat
deriving DecidableEq, Repr

/-- A queue element together with the level the task samples when it
dequeues it: the pin that interrupted and the level `gpio_get_level`
returns for that pin inside `gpioTaskExample`. -/
structure EdgeEvent : Type where
  pin : Pin
  level : Bool
deriving DecidableEq, Repr

/-- The edge-processing half of one loop iteration of `gpioTaskExample`
(lines 74–104 of `bsp_indev.c`): re-sample the interrupting pin, and if
its level changed, record the new level, set that phase's changed flag,
and — unless the other phase has already changed this cycle — decide the
direction by comparing the two stored phase levels. -/
def edgePhase (s : EncState) (e : EdgeEvent) : EncState :=
  match e.pin with
  | Pin.A =>
    let pha := e.level
    if pha ≠ s.phaOld then
      let s1 := { s with phaOld := pha, phaChange := true }
      if s1.phbChange ≠ true then
        if s1.phaOld ≠ s1.phbOld then
          { s1 with dir := 1, event := EncEvent.inc }
        else
          { s1 with dir := size_t_neg1, event := EncEvent.dec }
      else s1
    else s
  | Pin.B =>
    let phb := e.level
    if phb ≠ s.phbOld then
      let s1 := { s with phbOld := phb, phbChange := true }
      if s1.phaChange ≠ true then
        if s1.phaOld ≠ s1.phbOld then
          { s1 with dir := size_t_neg1, event := EncEvent.dec }
        else
          { s1 with dir := 1, event := EncEvent.inc }
      else s1
    else s

/-- One full loop iteration of `gpioTaskExample`: process the edge, then
(lines 105–113) commit when both phase-changed flags are set:
`EC11_Value += dir` (32-bit wrapping addition), reset both flags and
`dir`. -/
def decodeStep (s : EncState) (e : EdgeEvent) : EncState :=
  let s1 := edgePhase s e
  if s1.phaChange = true ∧ s1.phbChange = true then
    { s1 with
      value := (s1.value + s1.dir) % M32
      phaChange := false
      phbChange := false
      dir := 0 }
  else s1

/-- Run the decoder task over a sequence of dequeued edge events. -/
def decodeRun (s : EncState) (es : List EdgeEvent) : EncState :=
  es.foldl decodeStep s

/-- The state of `gpioTaskExample` right after start-up when both phase
lines idle at the given levels: the task samples both pins once, makes
the `old` values equal to the sampled ones, and the static initialisers
leave both changed flags clear, `dir = 0`, `event = bsp_encoder_EVENT_DEC`
and `EC11_Value`'s bit pattern equal to `v`. -/
def initState (a b : Bool) (v : Nat) : EncState :=
  { phaOld := a, phbOld := b, phaChange := false, phbChange := false,
    dir := 0, event := EncEvent.dec, value := v }

/-- The four edge events of the forward Gray-code cycle
`(A,B) : 00→01→11→10→00` as the task observes them. -/
def fwdCycle : List EdgeEvent :=
  [⟨Pin.B, true⟩, ⟨Pin.A, true⟩, ⟨Pin.B, false⟩, ⟨Pin.A, false⟩]

/-- The four edge events of the reverse Gray-code cycle
`(A,B) : 00→10→11→01→00`. -/
def revCycle : List EdgeEvent :=
  [⟨Pin.A, true⟩, ⟨Pin.B, true⟩, ⟨Pin.A, false⟩, ⟨Pin.B, false⟩]

/-! ## Shared lemmas about the decoder embedding -/

/-- The edge-processing phase never writes the accumulator. -/
theorem edgePhase_value (s : EncState) (e : EdgeEvent) :
    (edgePhase s e).value = s.value := by
  obtain ⟨p, l⟩ := e
  cases p <;> simp only [edgePhase] <;> (repeat' split) <;> rfl

/-- The bit pattern of `(size_t)-1` is `-1` in `ZMod (2^32)`. -/
theorem size_t_neg1_cast : ((size_t_neg1 : Nat) : ZMod M32) = -1 := by
  have h1 : (1 : Nat) ≤ M32 := Nat.one_le_two_pow
  rw [size_t_neg1, Nat.cast_sub h1, ZMod.natCast_self, Nat.cast_one, zero_sub]

/-- Value of the accumulator after the forward Gray-code cycle: the two
half-cycle commits add `size_t_neg1` twice, modulo `2^32`. -/
theorem decodeRun_fwd_value (v : Nat) :
    (decodeRun (initState false false v) fwdCycle).value
      = (v + 2 * size_t_neg1) % M32 := by
  have h : (decodeRun (initState false false v) fwdCycle).value
      = ((v + size_t_neg1) % M32 + size_t_neg1) % M32 := rfl
  rw [h, Nat.mod_add_mod, add_assoc, two_mul]

/-- Value of the accumulator after the reverse Gray-code cycle. -/
theorem decodeRun_rev_value (v : Nat) :
    (decodeRun (initState false false v) revCycle).value = (v + 2) % M32 := by
  have h : (decodeRun (initState false false v) revCycle).value
      = ((v + 1) % M32 + 1) % M32 := rfl
  rw [h, Nat.mod_add_mod]

/-- The forward Gray-code cycle decrements the accumulator by 2 in
`ZMod (2^32)`. -/
theorem decodeRun_fwd_zmod (v : Nat) :
    ((decodeRun (initState false false v) fwdCycle).value : ZMod M32)
      = (v : ZMod M32) - 2 := by
  rw [decodeRun_fwd_value, ZMod.natCast_mod]
  push_cast
  rw [size_t_neg1_cast]
  ring

/-- The reverse Gray-code cycle increments the accumulator by 2 in
`ZMod (2^32)`. -/
theorem decodeRun_rev_zmod (v : Nat) :
    ((decodeRun (initState false false v) revCycle).value : ZMod M32)
      = (v : ZMod M32) + 2 := by
  rw [decodeRun_rev_value, ZMod.natCast_mod]
  push_cast
  ring

/-- The accumulator moves only on iterations where both phase-changed
flags are simultaneously true after the edge is processed. -/
theorem commit_only_when_flags (s : EncState) (e : EdgeEvent) :
    (decodeStep s e).value ≠ s.value →
      (edgePhase s e).phaChange = true ∧ (edgePhase s e).phbChange = true := by
  intro h
  unfold decodeStep at h
  by_cases hc : (edgePhase s e).phaChange = true ∧ (edgePhase s e).phbChange = true
  · exact hc
  · exact absurd (edgePhase_value s e) (by simpa [hc] using h)

/-- When both phase-changed flags are true the iteration commits:
`EC11_Value += dir` with 32-bit wrap, and both flags are reset. -/
theorem commit_effect (s : EncState) (e : EdgeEvent)
    (h1 : (edgePhase s e).phaChange = true) (h2 : (edgePhase s e).phbChange = true) :
    (decodeStep s e).phaChange = false ∧ (decodeStep s e).phbChange = false ∧
    (decodeStep s e).value = (s.value + (edgePhase s e).dir) % M32 := by
  unfold decodeStep
  simp only [h1, h2, and_self, if_true, edgePhase_value]

/-! ## Claim C1 — accumulator change per Gray-code cycle -/

/-- C1 is false as stated: running the decoder from the idle `(0,0)`
state over the full forward Gray-code cycle `00→01→11→10→00` changes
`EC11_Value` by `-2` — one `±1` commit per two-edge half-cycle, hence
two commits per full cycle — not by exactly `+1` or `-1`. -/
theorem C1_counterexample :
    toInt32 (decodeRun (initState false false 0) fwdCycle).value - toInt32 0 = -2 ∧
    (-2 : Int) ≠ 1 ∧ (-2 : Int) ≠ -1 := by decide

/-- C1 (amended): over every valid Gray-code cycle `00→01→11→10→00` (or
its reverse) starting from the idle state, the accumulator `EC11_Value`
changes by exactly `-2` (resp. `+2`): each two-edge half-cycle commits
exactly `±1`, with the sign matching the rotation direction decided by
comparing the two phase levels; a commit happens only when both
phase-changed flags are simultaneously true, and after a commit both
flags are reset to false. -/
theorem C1_gray_cycle :
    (∀ v : Nat,
      (decodeRun (initState false false v) (fwdCycle.take 2)).value
          = (v + size_t_neg1) % M32 ∧
      (decodeRun (initState false false v) fwdCycle).value
          = (v + 2 * size_t_neg1) % M32 ∧
      ((decodeRun (initState false false v) fwdCycle).value : ZMod M32)
          = (v : ZMod M32) - 2 ∧
      (decodeRun (initState false false v) fwdCycle).event = EncEvent.dec) ∧
    (∀ v : Nat,
      (decodeRun (initState false false v) (revCycle.take 2)).value
          = (v + 1) % M32 ∧
      (decodeRun (initState false false v) revCycle).value = (v + 2) % M32 ∧
      ((decodeRun (initState false false v) revCycle).value : ZMod M32)
          = (v : ZMod M32) + 2 ∧
      (decodeRun (initState false false v) revCycle).event = EncEvent.inc) ∧
    (∀ (s : EncState) (e : EdgeEvent),
      (decodeStep s e).value ≠ s.value →
        (edgePhase s e).phaChange = true ∧ (edgePhase s e).phbChange = true) ∧
    (∀ (s : EncState) (e : EdgeEvent),
      (edgePhase s e).phaChange = true → (edgePhase s e).phbChange = true →
        (decodeStep s e).phaChange = false ∧ (decodeStep s e).phbChange = false ∧
        (decodeStep s e).value = (s.value + (edgePhase s e).dir) % M32) :=
  ⟨fun v => ⟨rfl, decodeRun_fwd_value v, decodeRun_fwd_zmod v, rfl⟩,
   fun v => ⟨rfl, decodeRun_rev_value v, decodeRun_rev_zmod v, rfl⟩,
   commit_only_when_flags,
   commit_effect⟩

/-- C1 witness: a concrete committing iteration (pin B already changed
and decided decrement, pin A now changes) resets both flags and applies
the wrapped addition. -/
theorem C1_gray_cycle_witness :
    (decodeStep ⟨false, true, false, true, size_t_neg1, EncEvent.dec, 5⟩
        ⟨Pin.A, true⟩).phaChange = false ∧
    (decodeStep ⟨false, true, false, true, size_t_neg1, EncEvent.dec, 5⟩
        ⟨Pin.A, true⟩).phbChange = false ∧
    (decodeStep ⟨false, true, false, true, size_t_neg1, EncEvent.dec, 5⟩
        ⟨Pin.A, true⟩).value
      = ((5 : Nat) + (edgePhase ⟨false, true, false, true, size_t_neg1, EncEvent.dec, 5⟩
        ⟨Pin.A, true⟩).dir) % M32 :=
  C1_gray_cycle.2.2.2 ⟨false, true, false, true, size_t_neg1, EncEvent.dec, 5⟩
    ⟨Pin.A, true⟩ (by decide) (by decide)

/-! ## Claim C2 — double toggle of a single pin -/

/-- C2 is false as stated: from the idle `(0,0)` state the first toggle
of pin A decides `dir = 1` (increment event), but after pin A toggles
back and pin B then moves, the committed change is `-1` — the direction
decided at the second toggle, not the first. -/
theorem C2_counterexample :
    (decodeRun (initState false false 0) [⟨Pin.A, true⟩]).dir = 1 ∧
    (decodeRun (initState false false 0) [⟨Pin.A, true⟩]).event = EncEvent.inc ∧
    toInt32 (decodeRun (initState false false 0)
        [⟨Pin.A, true⟩, ⟨Pin.A, false⟩, ⟨Pin.B, true⟩]).value = -1 ∧
    (-1 : Int) ≠ 1 := by decide

/-- C2 (amended): a changed edge on one pin, while the other pin's
changed flag is unset, always re-decides the direction from the current
phase levels (overwriting any earlier decision) and never commits;
hence when a single pin toggles twice before the other pin toggles once
— for either pin, from any idle phase state and accumulator value — the
direction committed when the other pin finally moves is the one decided
at the latest (second) toggle of the first pin, which is the opposite
of the first toggle's decision, and the commit (accumulator update and
flag reset) is deferred until the second pin actually changes. -/
theorem C2_double_toggle :
    (∀ (s : EncState) (l : Bool), l ≠ s.phaOld → s.phbChange = false →
      (decodeStep s ⟨Pin.A, l⟩).value = s.value ∧
      (decodeStep s ⟨Pin.A, l⟩).phaChange = true ∧
      (decodeStep s ⟨Pin.A, l⟩).phbChange = false ∧
      (decodeStep s ⟨Pin.A, l⟩).dir = (if l ≠ s.phbOld then 1 else size_t_neg1) ∧
      (decodeStep s ⟨Pin.A, l⟩).event
        = (if l ≠ s.phbOld then EncEvent.inc else EncEvent.dec)) ∧
    (∀ (s : EncState) (l : Bool), l ≠ s.phbOld → s.phaChange = false →
      (decodeStep s ⟨Pin.B, l⟩).value = s.value ∧
      (decodeStep s ⟨Pin.B, l⟩).phbChange = true ∧
      (decodeStep s ⟨Pin.B, l⟩).phaChange = false ∧
      (decodeStep s ⟨Pin.B, l⟩).dir = (if s.phaOld ≠ l then size_t_neg1 else 1) ∧
      (decodeStep s ⟨Pin.B, l⟩).event
        = (if s.phaOld ≠ l then EncEvent.dec else EncEvent.inc)) ∧
    (∀ (a b : Bool) (v : Nat),
      decodeRun (initState a b v) [⟨Pin.A, !a⟩] =
        { phaOld := !a, phbOld := b, phaChange := true, phbChange := false,
          dir := if (!a) ≠ b then 1 else size_t_neg1,
          event := if (!a) ≠ b then EncEvent.inc else EncEvent.dec,
          value := v } ∧
      decodeRun (initState a b v) [⟨Pin.A, !a⟩, ⟨Pin.A, a⟩] =
        { phaOld := a, phbOld := b, phaChange := true, phbChange := false,
          dir := if a ≠ b then 1 else size_t_neg1,
          event := if a ≠ b then EncEvent.inc else EncEvent.dec,
          value := v } ∧
      decodeRun (initState a b v) [⟨Pin.A, !a⟩, ⟨Pin.A, a⟩, ⟨Pin.B, !b⟩] =
        { phaOld := a, phbOld := !b, phaChange := false, phbChange := false,
          dir := 0, event := if a ≠ b then EncEvent.inc else EncEvent.dec,
          value := (v + (if a ≠ b then 1 else size_t_neg1)) % M32 }) ∧
    (∀ (a b : Bool) (v : Nat),
      decodeRun (initState a b v) [⟨Pin.B, !b⟩] =
        { phaOld := a, phbOld := !b, phaChange := false, phbChange := true,
          dir := if a ≠ (!b) then size_t_neg1 else 1,
          event := if a ≠ (!b) then EncEvent.dec else EncEvent.inc,
          value := v } ∧
      decodeRun (initState a b v) [⟨Pin.B, !b⟩, ⟨Pin.B, b⟩] =
        { phaOld := a, phbOld := b, phaChange := false, phbChange := true,
          dir := if a ≠ b then size_t_neg1 else 1,
          event := if a ≠ b then EncEvent.dec else EncEvent.inc,
          value := v } ∧
      decodeRun (initState a b v) [⟨Pin.B, !b⟩, ⟨Pin.B, b⟩, ⟨Pin.A, !a⟩] =
        { phaOld := !a, phbOld := b, phaChange := false, phbChange := false,
          dir := 0, event := if a ≠ b then EncEvent.dec else EncEvent.inc,
          value := (v + (if a ≠ b then size_t_neg1 else 1)) % M32 }) ∧
    (∀ a b : Bool,
      (if (!a) ≠ b then (1 : Nat) else size_t_neg1)
        ≠ (if a ≠ b then (1 : Nat) else size_t_neg1) ∧
      (if a ≠ (!b) then size_t_neg1 else (1 : Nat))
        ≠ (if a ≠ b then size_t_neg1 else (1 : Nat))) := by
  refine ⟨?_, ?_, ?_, ?_, ?_⟩
  · rintro ⟨pa, pb, ca, cb, d, ev, val⟩ l hne hb
    subst hb
    cases pa <;> cases pb <;> cases l <;>
      first
        | exact absurd rfl hne
        | exact ⟨rfl, rfl, rfl, rfl, rfl⟩
  · rintro ⟨pa, pb, ca, cb, d, ev, val⟩ l hne ha
    subst ha
    cases pa <;> cases pb <;> cases l <;>
      first
        | exact absurd rfl hne
        | exact ⟨rfl, rfl, rfl, rfl, rfl⟩
  · intro a b v
    cases a <;> cases b <;> exact ⟨rfl, rfl, rfl⟩
  · intro a b v
    cases a <;> cases b <;> exact ⟨rfl, rfl, rfl⟩
  · intro a b
    cases a <;> cases b <;> exact ⟨by decide, by decide⟩

/-- C2 witness: a concrete pin-A changed edge with the B flag unset
re-decides an increment, leaves the accumulator untouched and defers
the commit. -/
theorem C2_double_toggle_witness :
    (decodeStep ⟨true, true, false, false, 0, EncEvent.dec, 9⟩
        ⟨Pin.A, false⟩).value = 9 ∧
    (decodeStep ⟨true, true, false, false, 0, EncEvent.dec, 9⟩
        ⟨Pin.A, false⟩).phaChange = true ∧
    (decodeStep ⟨true, true, false, false, 0, EncEvent.dec, 9⟩
        ⟨Pin.A, false⟩).phbChange = false ∧
    (decodeStep ⟨true, true, false, false, 0, EncEvent.dec, 9⟩
        ⟨Pin.A, false⟩).dir = 1 ∧
    (decodeStep ⟨true, true, false, false, 0, EncEvent.dec, 9⟩
        ⟨Pin.A, false⟩).event = EncEvent.inc :=
  C2_double_toggle.1 ⟨true, true, false, false, 0, EncEvent.dec, 9⟩ false
    (by decide) rfl

/-! ## Claim C9 — unsigned `dir` still yields signed `±1` commits -/

/-- C9: `dir` has the unsigned type `size_t` (32 bits wide on this
target), so the assignment `dir = -1` stores `2^32 - 1`; nevertheless
every decrement commit changes the 32-bit accumulator `EC11_Value` by
exactly `-1` and every increment commit by exactly `+1`, because the
addition `EC11_Value += dir` wraps modulo `2^32` (stated both in
`ZMod (2^32)` and as a congruence of the signed interpretations). -/
theorem C9_unsigned_dir :
    size_t_neg1 = 2 ^ 32 - 1 ∧
    (∀ v : Nat,
      (((v + size_t_neg1) % M32 : Nat) : ZMod M32) = (v : ZMod M32) - 1 ∧
      Int.ModEq (M32 : Int) (toInt32 ((v + size_t_neg1) % M32)) (toInt32 v - 1) ∧
      (((v + 1) % M32 : Nat) : ZMod M32) = (v : ZMod M32) + 1 ∧
      Int.ModEq (M32 : Int) (toInt32 ((v + 1) % M32)) (toInt32 v + 1)) ∧
    (∀ (s : EncState) (e : EdgeEvent),
      (edgePhase s e).phaChange = true → (edgePhase s e).phbChange = true →
        ((edgePhase s e).dir = size_t_neg1 →
          ((decodeStep s e).value : ZMod M32) = (s.value : ZMod M32) - 1) ∧
        ((edgePhase s e).dir = 1 →
          ((decodeStep s e).value : ZMod M32) = (s.value : ZMod M32) + 1)) := by
  refine ⟨rfl, fun v => ⟨?_, ?_, ?_, ?_⟩, fun s e h1 h2 => ⟨fun hdir => ?_, fun hdir => ?_⟩⟩
  · rw [ZMod.natCast_mod]
    push_cast
    rw [size_t_neg1_cast]
    ring
  · unfold Int.ModEq toInt32 size_t_neg1 M32
    split <;> split <;> omega
  · rw [ZMod.natCast_mod]
    push_cast
    ring
  · unfold Int.ModEq toInt32 M32
    split <;> split <;> omega
  · rw [(commit_effect s e h1 h2).2.2, hdir, ZMod.natCast_mod]
    push_cast
    rw [size_t_neg1_cast]
    ring
  · rw [(commit_effect s e h1 h2).2.2, hdir, ZMod.natCast_mod]
    push_cast
    ring

/-- C9 witness: a concrete committing decrement iteration takes the
accumulator from bit pattern `7` to `7 - 1` in `ZMod (2^32)`. -/
theorem C9_unsigned_dir_witness :
    ((decodeStep ⟨true, false, true, false, size_t_neg1, EncEvent.dec, 7⟩
        ⟨Pin.B, true⟩).value : ZMod M32) = ((7 : Nat) : ZMod M32) - 1 :=
  (C9_unsigned_dir.2.2 ⟨true, false, true, false, size_t_neg1, EncEvent.dec, 7⟩
    ⟨Pin.B, true⟩ (by decide) (by decide)).1 (by decide)

/-! ## Tear synchronization gate (`bsp_lcd.c`) -/

/-- One invocation of `bsp_lcd_tear_gpio_isr_handler` on the binary
semaphore `flush_ready` (modelled as `Bool`: `true` = a ready token is
pending, the gate is Ready; `false` = Blocked). On a high TE level
(rising edge) `xSemaphoreGiveFromISR` fills the semaphore — a give on an
already-full binary semaphore has no further effect; on a low level
(falling edge) `xSemaphoreTakeFromISR` empties it — a take on an empty
one fails silently. -/
def bsp_lcd_tear_gpio_isr_handler (gate : Bool) (level : Bool) : Bool :=
  if level then true else false

/-- `bsp_lcd_wait_flush_ready`: the waiter blocks until the gate is
Ready and consumes the token (`xSemaphoreTake`): `some` of the gate
state after the take when the gate was Ready, `none` while the waiter
stays blocked. -/
def bsp_lcd_wait_flush_ready (gate : Bool) : Option Bool :=
  if gate then some false else none

/-! ## GC9A01 panel driver (`lcd_panel_gc9a01.c`) -/

/-- Column-address-set opcode (`esp_lcd_panel_commands.h`). -/
def LCD_CMD_CASET : Nat := 0x2A

/-- Row-address-set opcode. -/
def LCD_CMD_RASET : Nat := 0x2B

/-- Memory-write opcode. -/
def LCD_CMD_RAMWR : Nat := 0x2C

/-- Mode-control (memory access control) opcode. -/
def LCD_CMD_MADCTL : Nat := 0x36

/-- MADCTL mirror-X bit, `1 << 6`. -/
def LCD_CMD_MX_BIT : Nat := 0x40

/-- MADCTL mirror-Y bit, `1 << 7`. -/
def LCD_CMD_MY_BIT : Nat := 0x80

/-- MADCTL axis-swap bit, `1 << 5`. -/
def LCD_CMD_MV_BIT : Nat := 0x20

/-- MADCTL color-order (BGR) bit, `1 << 3`. -/
def LCD_CMD_BGR_BIT : Nat := 0x08

/-- `esp_lcd_color_space_t` values accepted by the driver. -/
inductive ColorSpace : Type
  | rgb : ColorSpace
  | bgr : ColorSpace
  | monochrome : ColorSpace
deriving DecidableEq, Repr

/-- Error taxonomy of the creation path (`esp_err_t` values it can
produce). -/
inductive EspErr : Type
  | invalidArg : EspErr
  | noMem : EspErr
  | notSupported : EspErr
deriving DecidableEq, Repr

/-- `esp_lcd_panel_dev_config_t` fields read by `lcd_new_panel_gc9a01`. -/
structure PanelDevConfig : Type where
  reset_gpio_num : Int
  color_space : ColorSpace
  bits_per_pixel : Nat
  reset_active_high : Bool
deriving DecidableEq, Repr

/-- The `gc9a01_panel_t` context: reset pin, gap offsets, pixel depth
and the saved MADCTL / COLMOD register values. -/
structure gc9a01_panel : Type where
  reset_gpio_num : Int
  reset_level : Bool
  x_gap : Int
  y_gap : Int
  bits_per_pixel : Nat
  madctl_val : Nat
  colmod_cal : Nat
deriving DecidableEq, Repr

/-- The first `switch` of `lcd_new_panel_gc9a01`: initial MADCTL value
for a supported color space, `none` for an unsupported one. -/
def madctlOfColorSpace : ColorSpace → Option Nat
  | ColorSpace.rgb => some 0
  | ColorSpace.bgr => some LCD_CMD_BGR_BIT
  | ColorSpace.monochrome => none

/-- The second `switch` of `lcd_new_panel_gc9a01`: COLMOD value for a
supported pixel width, `none` otherwise. -/
def colmodOfBpp (bpp : Nat) : Option Nat :=
  if bpp = 16 then some 0x55 else if bpp = 18 then some 0x66 else none

/-- `lcd_new_panel_gc9a01`: configures the reset GPIO (when
`reset_gpio_num >= 0`), validates color space then pixel width, and on
any failure releases the reset pin (`gpio_reset_pin`) and frees the
context before returning the error. The second component records
whether the reset pin is left configured when the call returns. -/
def lcd_new_panel_gc9a01 (cfg : PanelDevConfig) :
    Except EspErr gc9a01_panel × Bool :=
  match madctlOfColorSpace cfg.color_space with
  | none => (Except.error EspErr.notSupported, false)
  | some m =>
    match colmodOfBpp cfg.bits_per_pixel with
    | none => (Except.error EspErr.notSupported, false)
    | some c =>
      (Except.ok
        { reset_gpio_num := cfg.reset_gpio_num,
          reset_level := cfg.reset_active_high,
          x_gap := 0, y_gap := 0,
          bits_per_pixel := cfg.bits_per_pixel,
          madctl_val := m, colmod_cal := c },
       decide (0 ≤ cfg.reset_gpio_num))

/-- One transmission to the panel: a parameter command
(`esp_lcd_panel_io_tx_param`) or a pixel-stream command with its byte
count (`esp_lcd_panel_io_tx_color`). -/
inductive PanelTx : Type
  | txParam (cmd : Nat) (params : List Nat) : PanelTx
  | txColor (cmd : Nat) (len : Nat) : PanelTx
deriving DecidableEq, Repr

/-- High byte `(x >> 8) & 0xFF` of a C `int` coordinate: `>>` is an
arithmetic shift (floor division by 256) and `& 0xFF` keeps the
nonnegative remainder. -/
def byteHi (x : Int) : Nat := (Int.fdiv x 256 % 256).toNat

/-- Low byte `x & 0xFF`. -/
def byteLo (x : Int) : Nat := (x % 256).toNat

/-- `panel_gc9a01_draw_bitmap`: asserts `x_start < x_end` and
`y_start < y_end` (a fatal precondition — `none` means the `assert`
fired and nothing was transmitted), offsets all four coordinates by the
panel's gap, emits the column-address-set with the inclusive big-endian
range `[x_start, x_end-1]`, the row-address-set likewise, then streams
`(x_end - x_start) * (y_end - y_start) * bits_per_pixel / 8` bytes as a
memory-write payload. -/
def panel_gc9a01_draw_bitmap (p : gc9a01_panel)
    (x_start y_start x_end y_end : Int) : Option (List PanelTx) :=
  if x_start < x_end ∧ y_start < y_end then
    let xs := x_start + p.x_gap
    let xe := x_end + p.x_gap
    let ys := y_start + p.y_gap
    let ye := y_end + p.y_gap
    some [PanelTx.txParam LCD_CMD_CASET
            [byteHi xs, byteLo xs, byteHi (xe - 1), byteLo (xe - 1)],
          PanelTx.txParam LCD_CMD_RASET
            [byteHi ys, byteLo ys, byteHi (ye - 1), byteLo (ye - 1)],
          PanelTx.txColor LCD_CMD_RAMWR
            (((xe - xs) * (ye - ys)).toNat * p.bits_per_pixel / 8)]
  else none

/-- `panel_gc9a01_mirror`: read-modify-write of the saved MADCTL byte —
set or clear MX for `mirror_x`, set or clear MY for `mirror_y`
(`&= ~bit` on a `uint8_t` is `&&& (0xFF ^^^ bit)`), then transmit it. -/
def panel_gc9a01_mirror (p : gc9a01_panel) (mirror_x mirror_y : Bool) :
    gc9a01_panel :=
  let v1 := if mirror_x then p.madctl_val ||| LCD_CMD_MX_BIT
            else p.madctl_val &&& (0xFF ^^^ LCD_CMD_MX_BIT)
  let v2 := if mirror_y then v1 ||| LCD_CMD_MY_BIT
            else v1 &&& (0xFF ^^^ LCD_CMD_MY_BIT)
  { p with madctl_val := v2 }

/-- `panel_gc9a01_swap_xy`: read-modify-write of the saved MADCTL byte —
set or clear the MV bit, then transmit it. -/
def panel_gc9a01_swap_xy (p : gc9a01_panel) (swap_axes : Bool) :
    gc9a01_panel :=
  let v := if swap_axes then p.madctl_val ||| LCD_CMD_MV_BIT
           else p.madctl_val &&& (0xFF ^^^ LCD_CMD_MV_BIT)
  { p with madctl_val := v }

/-! ## LVGL flush pipeline and encoder glue (`lvgl_port.c`) -/

/-- Observable actions of one flush: the blocking tear-gate wait or a
panel transmission. -/
inductive FlushAction : Type
  | waitFlushReady : FlushAction
  | tx (t : PanelTx) : FlushAction
deriving DecidableEq, Repr

/-- `display_init` line `disp_drv.full_refresh = (config->avoid_tear) ? 1 : 0`. -/
def display_init_full_refresh (avoid_tear : Bool) : Bool :=
  if avoid_tear then true else false

/-- Ordered action trace of one `flush_cb` invocation: when
`full_refresh` is set it first blocks on `bsp_lcd_wait_flush_ready`,
then calls `esp_lcd_panel_draw_bitmap` on the LVGL area with the
inclusive ends converted to exclusive ones (`x2 + 1`, `y2 + 1`); a draw
whose precondition fails aborts with nothing transmitted. -/
def flush_cb (full_refresh : Bool) (p : gc9a01_panel) (x1 y1 x2 y2 : Int) :
    List FlushAction :=
  (if full_refresh then [FlushAction.waitFlushReady] else []) ++
    (match panel_gc9a01_draw_bitmap p x1 y1 (x2 + 1) (y2 + 1) with
     | some txs => txs.map FlushAction.tx
     | none => [])

/-- One invocation of the LVGL `encoder_read` callback:
`invd = bsp_encoder_get_value()`, `data->enc_diff = last_v - invd`
(32-bit subtraction of bit patterns), then `last_v = invd`. Returns the
reported `enc_diff` pattern and the new `last_v`. -/
def encoder_read (last_v invd : Nat) : Nat × Nat :=
  ((last_v + (M32 - invd % M32)) % M32, invd)

/-- The `enc_diff` patterns reported by successive `encoder_read` calls,
given the initial `last_v` and the accumulator snapshot each call
observes. -/
def encoder_read_seq (last_v : Nat) : List Nat → List Nat
  | [] => []
  | v :: rest => (encoder_read last_v v).1 :: encoder_read_seq v rest

/-! ## Claim C3 — tear gate transitions -/

/-- C3: the tear gate becomes Ready on a TE rising edge and Blocked on a
falling edge, and a rising edge immediately followed by a falling edge
with no waiter running in between leaves the gate Blocked, whatever
edges came before — readiness does not accumulate beyond the latest
edge. -/
theorem C3_tear_gate :
    (∀ g : Bool, bsp_lcd_tear_gpio_isr_handler g true = true) ∧
    (∀ g : Bool, bsp_lcd_tear_gpio_isr_handler g false = false) ∧
    (∀ (g : Bool) (es : List Bool),
      (es ++ [true, false]).foldl bsp_lcd_tear_gpio_isr_handler g = false) := by
  refine ⟨fun g => rfl, fun g => rfl, fun g es => ?_⟩
  rw [List.foldl_append]
  rfl

/-! ## Claim C4 — draw window 10..50 on a gapless 16-bpp panel -/

/-- C4: on a panel with gap `(0,0)` and 16 bits per pixel,
`draw_bitmap(10,10,50,50)` emits the column-address-set with parameter
bytes `[0x00,0x0A,0x00,0x31]` (the inclusive big-endian range 10..49),
the row-address-set with the same bytes, then a memory-write payload of
exactly `40*40*2` bytes. -/
theorem C4_draw_window (p : gc9a01_panel)
    (hx : p.x_gap = 0) (hy : p.y_gap = 0) (hbpp : p.bits_per_pixel = 16) :
    panel_gc9a01_draw_bitmap p 10 10 50 50 =
      some [PanelTx.txParam LCD_CMD_CASET [0x00, 0x0A, 0x00, 0x31],
            PanelTx.txParam LCD_CMD_RASET [0x00, 0x0A, 0x00, 0x31],
            PanelTx.txColor LCD_CMD_RAMWR (40 * 40 * 2)] := by
  simp only [panel_gc9a01_draw_bitmap, hx, hy, hbpp]
  decide

/-- C4 witness: the concrete panel produced by the BSP configuration
(reset pin 2, RGB, 16 bpp, gap `(0,0)`). -/
theorem C4_draw_window_witness :
    panel_gc9a01_draw_bitmap ⟨2, false, 0, 0, 16, 0, 0x55⟩ 10 10 50 50 =
      some [PanelTx.txParam LCD_CMD_CASET [0x00, 0x0A, 0x00, 0x31],
            PanelTx.txParam LCD_CMD_RASET [0x00, 0x0A, 0x00, 0x31],
            PanelTx.txColor LCD_CMD_RAMWR (40 * 40 * 2)] :=
  C4_draw_window ⟨2, false, 0, 0, 16, 0, 0x55⟩ rfl rfl rfl

/-! ## Claim C5 — tear-gate wait precedes the draw window -/

/-- C5: with full-refresh/tear-avoidance enabled
(`disp_drv.full_refresh = avoid_tear ? 1 : 0`), a flush trace starts
with the blocking `bsp_lcd_wait_flush_ready` and every panel
transmission of that flush appears strictly after it. -/
theorem C5_wait_before_draw (avoid_tear : Bool) (p : gc9a01_panel)
    (x1 y1 x2 y2 : Int) (h : avoid_tear = true) :
    (flush_cb (display_init_full_refresh avoid_tear) p x1 y1 x2 y2).head? =
      some FlushAction.waitFlushReady ∧
    (∀ (i : Nat) (t : PanelTx),
      (flush_cb (display_init_full_refresh avoid_tear) p x1 y1 x2 y2).get? i =
        some (FlushAction.tx t) → 1 ≤ i) := by
  subst h
  constructor
  · rfl
  · intro i t ht
    cases i with
    | zero =>
      have h0 : (flush_cb (display_init_full_refresh true) p x1 y1 x2 y2).get? 0 =
          some FlushAction.waitFlushReady := rfl
      rw [h0] at ht
      cases ht
    | succ n => omega

/-- C5 witness: a concrete full-refresh flush whose first action is the
tear-gate wait. -/
theorem C5_wait_before_draw_witness :
    (flush_cb (display_init_full_refresh true) ⟨2, false, 0, 0, 16, 0, 0x55⟩
        10 10 49 49).head? = some FlushAction.waitFlushReady :=
  (C5_wait_before_draw true ⟨2, false, 0, 0, 16, 0, 0x55⟩ 10 10 49 49 rfl).1

/-! ## Claim C6 — unsupported pixel width fails without leaking -/

/-- C6: panel creation with any `bits_per_pixel` other than 16 or 18
fails with `ESP_ERR_NOT_SUPPORTED`, produces no panel handle, and
leaves the reset-pin GPIO released. -/
theorem C6_unsupported_bpp (cfg : PanelDevConfig)
    (h16 : cfg.bits_per_pixel ≠ 16) (h18 : cfg.bits_per_pixel ≠ 18) :
    (lcd_new_panel_gc9a01 cfg).1 = Except.error EspErr.notSupported ∧
    (lcd_new_panel_gc9a01 cfg).2 = false := by
  have hc : colmodOfBpp cfg.bits_per_pixel = none := by
    unfold colmodOfBpp
    rw [if_neg h16, if_neg h18]
  unfold lcd_new_panel_gc9a01
  cases hcs : madctlOfColorSpace cfg.color_space <;> simp [hcs, hc]

/-- C6 witness: creation with `bits_per_pixel = 24` on an otherwise
valid configuration. -/
theorem C6_unsupported_bpp_witness :
    (lcd_new_panel_gc9a01 ⟨2, ColorSpace.rgb, 24, false⟩).1
        = Except.error EspErr.notSupported ∧
    (lcd_new_panel_gc9a01 ⟨2, ColorSpace.rgb, 24, false⟩).2 = false :=
  C6_unsupported_bpp ⟨2, ColorSpace.rgb, 24, false⟩ (by decide) (by decide)

/-! ## Claim C7 — mirror(true,false) then swap_axes(true) -/

set_option maxRecDepth 8192 in
/-- Helper used by the claim about `mirror` and `swap_xy`: the MADCTL
read-modify-write expressions, for every 8-bit starting value, preserve
the BGR bit (and every bit outside the ones each call controls), set MX
and MV, and clear MY. -/
theorem madctl_bit_facts :
    ∀ m : Fin 256,
      ((((m.val ||| LCD_CMD_MX_BIT) &&& (0xFF ^^^ LCD_CMD_MY_BIT)) ||| LCD_CMD_MV_BIT)
          &&& LCD_CMD_BGR_BIT = m.val &&& LCD_CMD_BGR_BIT) ∧
      ((((m.val ||| LCD_CMD_MX_BIT) &&& (0xFF ^^^ LCD_CMD_MY_BIT)) ||| LCD_CMD_MV_BIT)
          &&& LCD_CMD_MX_BIT = LCD_CMD_MX_BIT) ∧
      ((((m.val ||| LCD_CMD_MX_BIT) &&& (0xFF ^^^ LCD_CMD_MY_BIT)) ||| LCD_CMD_MV_BIT)
          &&& LCD_CMD_MV_BIT = LCD_CMD_MV_BIT) ∧
      ((((m.val ||| LCD_CMD_MX_BIT) &&& (0xFF ^^^ LCD_CMD_MY_BIT)) ||| LCD_CMD_MV_BIT)
          &&& LCD_CMD_MY_BIT = 0) ∧
      (∀ x y : Bool,
        ((if y then (if x then m.val ||| LCD_CMD_MX_BIT
                     else m.val &&& (0xFF ^^^ LCD_CMD_MX_BIT)) ||| LCD_CMD_MY_BIT
          else (if x then m.val ||| LCD_CMD_MX_BIT
                else m.val &&& (0xFF ^^^ LCD_CMD_MX_BIT))
                  &&& (0xFF ^^^ LCD_CMD_MY_BIT))
          &&& (0xFF ^^^ (LCD_CMD_MX_BIT ||| LCD_CMD_MY_BIT)))
          = m.val &&& (0xFF ^^^ (LCD_CMD_MX_BIT ||| LCD_CMD_MY_BIT))) ∧
      (∀ b : Bool,
        ((if b then m.val ||| LCD_CMD_MV_BIT
          else m.val &&& (0xFF ^^^ LCD_CMD_MV_BIT))
          &&& (0xFF ^^^ LCD_CMD_MV_BIT))
          = m.val &&& (0xFF ^^^ LCD_CMD_MV_BIT)) := by decide

/-- Helper: a successfully created panel starts with MADCTL equal to 0
(RGB) or exactly the BGR bit (BGR). -/
theorem create_ok_madctl (cfg : PanelDevConfig) (p : gc9a01_panel)
    (h : (lcd_new_panel_gc9a01 cfg).1 = Except.ok p) :
    p.madctl_val = 0 ∨ p.madctl_val = LCD_CMD_BGR_BIT := by
  unfold lcd_new_panel_gc9a01 at h
  cases hcs : madctlOfColorSpace cfg.color_space with
  | none => rw [hcs] at h; cases h
  | some m =>
    rw [hcs] at h
    cases hcm : colmodOfBpp cfg.bits_per_pixel with
    | none => rw [hcm] at h; cases h
    | some c =>
      rw [hcm] at h
      simp only [Prod.fst] at h
      have hp : p.madctl_val = m := by
        cases h
        rfl
      have hm : m = 0 ∨ m = LCD_CMD_BGR_BIT := by
        revert hcs
        unfold madctlOfColorSpace
        cases cfg.color_space
        · intro hcs
          exact Or.inl (Option.some.inj hcs).symm
        · intro hcs
          exact Or.inr (Option.some.inj hcs).symm
        · intro hcs
          cases hcs
      rw [hp]
      exact hm

set_option maxRecDepth 4096 in
/-- C7: on any panel returned by creation, `mirror(true,false)` followed
by `swap_axes(true)` yields a MADCTL byte equal to the creation-time
value with exactly MX and MV newly set (so the BGR bit is preserved and
MY is clear); moreover both operations are read-modify-writes that
preserve every bit outside the ones they control (`mirror`: MX and MY;
`swap_axes`: MV). -/
theorem C7_mirror_then_swap :
    (∀ (cfg : PanelDevConfig) (p : gc9a01_panel),
      (lcd_new_panel_gc9a01 cfg).1 = Except.ok p →
        (panel_gc9a01_swap_xy (panel_gc9a01_mirror p true false) true).madctl_val
          = p.madctl_val ||| (LCD_CMD_MX_BIT ||| LCD_CMD_MV_BIT)) ∧
    (∀ p : gc9a01_panel, p.madctl_val < 256 →
      (panel_gc9a01_swap_xy (panel_gc9a01_mirror p true false) true).madctl_val
          &&& LCD_CMD_BGR_BIT = p.madctl_val &&& LCD_CMD_BGR_BIT ∧
      (panel_gc9a01_swap_xy (panel_gc9a01_mirror p true false) true).madctl_val
          &&& LCD_CMD_MX_BIT = LCD_CMD_MX_BIT ∧
      (panel_gc9a01_swap_xy (panel_gc9a01_mirror p true false) true).madctl_val
          &&& LCD_CMD_MV_BIT = LCD_CMD_MV_BIT ∧
      (panel_gc9a01_swap_xy (panel_gc9a01_mirror p true false) true).madctl_val
          &&& LCD_CMD_MY_BIT = 0) ∧
    (∀ (p : gc9a01_panel) (x y : Bool), p.madctl_val < 256 →
      (panel_gc9a01_mirror p x y).madctl_val
          &&& (0xFF ^^^ (LCD_CMD_MX_BIT ||| LCD_CMD_MY_BIT))
        = p.madctl_val &&& (0xFF ^^^ (LCD_CMD_MX_BIT ||| LCD_CMD_MY_BIT))) ∧
    (∀ (p : gc9a01_panel) (b : Bool), p.madctl_val < 256 →
      (panel_gc9a01_swap_xy p b).madctl_val &&& (0xFF ^^^ LCD_CMD_MV_BIT)
        = p.madctl_val &&& (0xFF ^^^ LCD_CMD_MV_BIT)) := by
  refine ⟨?_, fun p hlt => ⟨?_, ?_, ?_, ?_⟩, fun p x y hlt => ?_, fun p b hlt => ?_⟩
  · intro cfg p h
    have hm := create_ok_madctl cfg p h
    unfold panel_gc9a01_swap_xy panel_gc9a01_mirror
    rcases hm with hm | hm <;> simp only [hm] <;> decide
  · exact (madctl_bit_facts ⟨p.madctl_val, hlt⟩).1
  · exact (madctl_bit_facts ⟨p.madctl_val, hlt⟩).2.1
  · exact (madctl_bit_facts ⟨p.madctl_val, hlt⟩).2.2.1
  · exact (madctl_bit_facts ⟨p.madctl_val, hlt⟩).2.2.2.1
  · exact (madctl_bit_facts ⟨p.madctl_val, hlt⟩).2.2.2.2.1 x y
  · exact (madctl_bit_facts ⟨p.madctl_val, hlt⟩).2.2.2.2.2 b

/-- C7 witness: the panel created with BGR color order keeps its BGR bit
and gains exactly MX and MV. -/
theorem C7_mirror_then_swap_witness :
    (panel_gc9a01_swap_xy (panel_gc9a01_mirror
        ⟨2, false, 0, 0, 16, LCD_CMD_BGR_BIT, 0x55⟩ true false) true).madctl_val
      = LCD_CMD_BGR_BIT ||| (LCD_CMD_MX_BIT ||| LCD_CMD_MV_BIT) :=
  C7_mirror_then_swap.1 ⟨2, ColorSpace.bgr, 16, false⟩
    ⟨2, false, 0, 0, 16, LCD_CMD_BGR_BIT, 0x55⟩ rfl

/-! ## Claim C8 — non-monotonic window is rejected before any command -/

/-- C8: a `draw_bitmap` call with `x_start >= x_end` (or
`y_start >= y_end`) fails its fatal `assert` before transmitting
anything: no column-set, row-set or memory-write command is issued. -/
theorem C8_bad_window :
    (∀ (p : gc9a01_panel) (x0 y0 x1 y1 : Int), x1 ≤ x0 →
      panel_gc9a01_draw_bitmap p x0 y0 x1 y1 = none) ∧
    (∀ (p : gc9a01_panel) (x0 y0 x1 y1 : Int), y1 ≤ y0 →
      panel_gc9a01_draw_bitmap p x0 y0 x1 y1 = none) := by
  constructor <;> intro p x0 y0 x1 y1 h <;> unfold panel_gc9a01_draw_bitmap <;>
    rw [if_neg] <;> intro hc
  · exact absurd hc.1 (not_lt.mpr h)
  · exact absurd hc.2 (not_lt.mpr h)

/-- C8 witness: the degenerate window `x0 = 50 >= x1 = 10`. -/
theorem C8_bad_window_witness :
    panel_gc9a01_draw_bitmap ⟨2, false, 0, 0, 16, 0, 0x55⟩ 50 10 10 50 = none :=
  C8_bad_window.1 ⟨2, false, 0, 0, 16, 0, 0x55⟩ 50 10 10 50 (by decide)

/-! ## Claim C10 — encoder read reports the negated accumulator change -/

/-- C10: each `encoder_read` reports `enc_diff = last_v - invd` — the
previously stored value minus the current `bsp_encoder_get_value()`
snapshot, i.e. the negation of the accumulator's change since the
previous read (in 32-bit arithmetic) — and stores the snapshot; hence
the diffs of a sequence of reads telescope, summing to the initial
stored value minus the last snapshot: the negated total accumulator
change over the interval. -/
theorem C10_encoder_diff :
    (∀ last_v invd : Nat,
      ((encoder_read last_v invd).1 : ZMod M32) =
        (last_v : ZMod M32) - (invd : ZMod M32) ∧
      (encoder_read last_v invd).2 = invd) ∧
    (∀ (v0 : Nat) (snaps : List Nat),
      ((encoder_read_seq v0 snaps).sum : ZMod M32)
        = (v0 : ZMod M32) - ((snaps.getLastD v0 : Nat) : ZMod M32)) := by
  have hstep : ∀ last_v invd : Nat,
      ((encoder_read last_v invd).1 : ZMod M32) =
        (last_v : ZMod M32) - (invd : ZMod M32) := by
    intro last_v invd
    unfold encoder_read
    rw [ZMod.natCast_mod, Nat.cast_add,
        Nat.cast_sub (le_of_lt (Nat.mod_lt invd (by norm_num [M32]))),
        ZMod.natCast_self, ZMod.natCast_mod]
    ring
  refine ⟨fun l i => ⟨hstep l i, rfl⟩, fun v0 snaps => ?_⟩
  induction snaps generalizing v0 with
  | nil => simp [encoder_read_seq]
  | cons v rest ih =>
    rw [encoder_read_seq, List.sum_cons, Nat.cast_add, hstep, ih v,
        List.getLastD_cons]
    ring
